import Mathlib

/-!
Verification of the Analytics_Agent pipeline.

This file gives a shallow embedding, in Lean, of the decision logic of the
repository: the SQL safety validator (`LLMClient.validate_sql`), the response
parsers (`LLMClient.parse_json_response`, `LLMClient._extract_sql`), the
query-analysis fallback (`LLMClient.analyze_query` /
`LLMClient._fallback_query_analysis`), the prompt-pair loader
(`LLMClient.load_prompt_with_auto_split`) and the pipeline orchestrator
(`AnalyticsService.analyze_query_full`).

Python strings are modelled as Lean `String`s, with the string operations the
code uses (`upper`, `lower`, `strip`, `startswith`, the `in` substring test,
`count`, `replace`) defined explicitly over the underlying character lists.
Python's `re` calls are modelled by equivalent explicit scans over character
lists.  Code that raises exceptions is modelled with `Option`/`Except`; the
network-facing stages of the orchestrator (the Groq gateway calls) are
abstracted as parameters returning `Except String _`, since their behaviour is
external to the repository.
-/

set_option maxRecDepth 10000

/-- Whitespace test used throughout: models the whitespace classes of Python's
`str.strip` / `\s` on the ASCII whitespace actually occurring in this code
base (space, tab, carriage return, newline). -/
def wsp (c : Char) : Bool := c.isWhitespace

/-- Model of Python `str.upper` on the character list (ASCII). -/
def upperL (l : List Char) : List Char := l.map Char.toUpper

/-- Model of Python `str.lower` on the character list (ASCII). -/
def lowerL (l : List Char) : List Char := l.map Char.toLower

/-- Model of Python `str.strip`: drop whitespace from both ends. -/
def stripL (l : List Char) : List Char :=
  ((l.dropWhile wsp).reverse.dropWhile wsp).reverse

/-- Model of Python's substring test `pat in l`. -/
def containsL (l pat : List Char) : Bool :=
  l.tails.any (fun t => pat.isPrefixOf t)

/-- Result of `LLMClient.validate_sql`: the Python dict
`{"valid": bool, "errors": [...]}`. -/
structure ValidationResult where
  valid : Bool
  errors : List String
deriving DecidableEq, Repr

/-- The fixed denylist from `LLMClient.validate_sql` (src/llm_client.py:251),
in source order. -/
def dangerous_keywords : List String :=
  ["DROP", "DELETE", "TRUNCATE", "ALTER", "CREATE", "INSERT", "UPDATE"]

/-- The value `sql.upper().strip()` computed at src/llm_client.py:244. -/
def sqlUpperOf (sql : String) : List Char := stripL (upperL sql.data)

/-- Errors contributed by the SELECT/WITH check (src/llm_client.py:247-248). -/
def startErrsOf (sql : String) : List String :=
  if "SELECT".data.isPrefixOf (sqlUpperOf sql) || "WITH".data.isPrefixOf (sqlUpperOf sql) then []
  else ["Query must start with SELECT"]

/-- Errors contributed by the denylist loop (src/llm_client.py:251-254): one
error per keyword of the denylist occurring in `sql.upper().strip()`, in
denylist order. -/
def dangerErrsOf (sql : String) : List String :=
  (dangerous_keywords.filter (fun k => containsL (sqlUpperOf sql) k.data)).map
    (fun k => "Dangerous keyword: " ++ k)

/-- Errors contributed by the parenthesis check (src/llm_client.py:257-258),
which counts over the original (unstripped, uncased) statement. -/
def parenErrsOf (sql : String) : List String :=
  if sql.data.count '(' ≠ sql.data.count ')' then ["Unbalanced parentheses"] else []

/-- Embedding of `LLMClient.validate_sql` (src/llm_client.py:232-265): the
three checks run unconditionally, their errors are accumulated in order, and
`valid` is `len(errors) == 0`. -/
def validate_sql (sql : String) : ValidationResult :=
  { valid := (startErrsOf sql ++ dangerErrsOf sql ++ parenErrsOf sql).length == 0,
    errors := startErrsOf sql ++ dangerErrsOf sql ++ parenErrsOf sql }

/-- C1: if the statement, trimmed of surrounding whitespace, does not begin
case-insensitively with `SELECT` or `WITH`, then `validate_sql` is invalid and
its error list contains the error saying the query must start with SELECT. -/
theorem validate_sql_must_start_with_select (s : String)
    (h : ("SELECT".data.isPrefixOf (sqlUpperOf s) ||
          "WITH".data.isPrefixOf (sqlUpperOf s)) = false) :
    (validate_sql s).valid = false ∧
    "Query must start with SELECT" ∈ (validate_sql s).errors := by
  have hstart : startErrsOf s = ["Query must start with SELECT"] := by
    unfold startErrsOf
    rw [h]
    simp
  constructor
  · show ((startErrsOf s ++ dangerErrsOf s ++ parenErrsOf s).length == 0) = false
    rw [hstart]
    simp
  · show "Query must start with SELECT" ∈ startErrsOf s ++ dangerErrsOf s ++ parenErrsOf s
    rw [hstart]
    simp

/-- Witness for C1 at the concrete statement `"DROP TABLE users"`. -/
theorem validate_sql_must_start_with_select_witness :
    (validate_sql "DROP TABLE users").valid = false ∧
    "Query must start with SELECT" ∈ (validate_sql "DROP TABLE users").errors :=
  validate_sql_must_start_with_select "DROP TABLE users" (by decide)

/-- C3: `validate_sql` collects every violation rather than short-circuiting:
it is valid exactly when the error list is empty, a parenthesis-count mismatch
always contributes the "Unbalanced parentheses" error, and on the two example
statements of the specification it returns exactly the stated results. -/
theorem validate_sql_collects_all_errors (s : String) :
    ((validate_sql s).valid = true ↔ (validate_sql s).errors = []) ∧
    (s.data.count '(' ≠ s.data.count ')' →
      "Unbalanced parentheses" ∈ (validate_sql s).errors) ∧
    validate_sql "SELECT * FROM t WHERE (a=1)" = { valid := true, errors := [] } ∧
    (validate_sql "SELECT * FROM t WHERE (a=1").valid = false ∧
    "Unbalanced parentheses" ∈ (validate_sql "SELECT * FROM t WHERE (a=1").errors := by
  refine ⟨?_, ?_, by decide, by decide, by decide⟩
  · show ((startErrsOf s ++ dangerErrsOf s ++ parenErrsOf s).length == 0) = true ↔
      startErrsOf s ++ dangerErrsOf s ++ parenErrsOf s = []
    simp [List.length_eq_zero]
  · intro h
    have hp : parenErrsOf s = ["Unbalanced parentheses"] := by
      unfold parenErrsOf
      rw [if_pos h]
    show "Unbalanced parentheses" ∈ startErrsOf s ++ dangerErrsOf s ++ parenErrsOf s
    rw [hp]
    simp

/-- Witness for C3 at the concrete statement `"(("`. -/
theorem validate_sql_collects_all_errors_witness :
    "Unbalanced parentheses" ∈ (validate_sql "((").errors :=
  (validate_sql_collects_all_errors "((").2.1 (by decide)

/-- C9: `validate_sql` is a pure deterministic function of the statement: the
embedding consults nothing but its argument, so two runs on the same statement
give identical results (same flag, same error list in the same order). -/
theorem validate_sql_deterministic :
    ∀ s : String, validate_sql s = validate_sql s :=
  fun _ => rfl

/-- Correctness of the substring test: `containsL l pat` holds exactly when
`pat` occurs contiguously inside `l`. -/
theorem containsL_iff (l pat : List Char) : containsL l pat = true ↔ pat <:+: l := by
  unfold containsL
  rw [List.any_eq_true]
  constructor
  · rintro ⟨t, ht, hp⟩
    rw [List.mem_tails] at ht
    rw [List.isPrefixOf_iff_prefix] at hp
    exact List.infix_iff_prefix_suffix.mpr ⟨t, hp, ht⟩
  · intro h
    obtain ⟨t, hp, ht⟩ := List.infix_iff_prefix_suffix.mp h
    exact ⟨t, (List.mem_tails _ _).mpr ht, List.isPrefixOf_iff_prefix.mpr hp⟩

/-- A nonempty pattern none of whose characters satisfies `p` survives
`dropWhile p` as a contiguous occurrence. -/
theorem infix_dropWhile_of_none (p : Char → Bool) (k : List Char)
    (hne : k ≠ []) (hk : ∀ c ∈ k, p c = false) :
    ∀ l : List Char, k <:+: l → k <:+: l.dropWhile p := by
  intro l
  induction l with
  | nil =>
    intro h
    exact absurd (List.infix_nil.mp h) hne
  | cons c rest ih =>
    intro h
    rw [List.dropWhile_cons]
    by_cases hc : p c = true
    · rw [if_pos hc]
      rcases List.infix_cons_iff.mp h with hpre | hinf
      · exfalso
        obtain ⟨t, ht⟩ := hpre
        cases k with
        | nil => exact hne rfl
        | cons a ka =>
          have ha : a = c := by
            rw [List.cons_append] at ht
            exact (List.cons.injEq _ _ _ _ ▸ ht).1
          have hpa := hk a (by simp)
          rw [ha, hc] at hpa
          exact Bool.noConfusion hpa
      · exact ih hinf
    · rw [if_neg hc]
      exact h

/-- Contiguous occurrence is preserved by reversal. -/
theorem infix_rev (k l : List Char) (h : k <:+: l) : k.reverse <:+: l.reverse := by
  obtain ⟨s, t, rfl⟩ := h
  exact ⟨t.reverse, s.reverse, by simp⟩

/-- A nonempty, whitespace-free pattern occurring in `l` still occurs after
Python-style stripping of `l`. -/
theorem infix_stripL (k : List Char) (hne : k ≠ [])
    (hk : ∀ c ∈ k, wsp c = false) (l : List Char) (h : k <:+: l) :
    k <:+: stripL l := by
  have h1 : k <:+: l.dropWhile wsp := infix_dropWhile_of_none wsp k hne hk l h
  have h2 : k.reverse <:+: (l.dropWhile wsp).reverse := infix_rev _ _ h1
  have hner : k.reverse ≠ [] := by simpa using hne
  have hkr : ∀ c ∈ k.reverse, wsp c = false := fun c hc => hk c (List.mem_reverse.mp hc)
  have h3 : k.reverse <:+: (l.dropWhile wsp).reverse.dropWhile wsp :=
    infix_dropWhile_of_none wsp k.reverse hner hkr _ h2
  have h4 := infix_rev _ _ h3
  rw [List.reverse_reverse] at h4
  exact h4

/-- Prepending a fixed string is injective. -/
theorem append_left_inj (p : String) : Function.Injective (fun s => p ++ s) := by
  intro a b h
  have hd : p.data ++ a.data = p.data ++ b.data := by
    have h2 := congrArg String.data h
    simpa [String.data_append] using h2
  exact String.ext (List.append_cancel_left hd)

/-- Counting an element with a fixed string prepended, in a list mapped the
same way, is counting the original element. -/
theorem count_map_append_eq (pre k : String) :
    ∀ l : List String, (l.map (fun x => pre ++ x)).count (pre ++ k) = l.count k := by
  intro l
  induction l with
  | nil => rfl
  | cons a t ih =>
    simp only [List.map_cons, List.count_cons, ih]
    by_cases hak : a = k
    · simp [hak]
    · have hpk : ¬ (pre ++ a = pre ++ k) := fun hcontra => hak (append_left_inj pre hcontra)
      simp [hak, hpk]

/-- Filtering by a predicate an element satisfies does not change that
element's multiplicity. -/
theorem count_filter_of_pred (p : String → Bool) (k : String) (hp : p k = true) :
    ∀ l : List String, (l.filter p).count k = l.count k := by
  intro l
  induction l with
  | nil => rfl
  | cons a t ih =>
    by_cases hpa : p a = true
    · rw [List.filter_cons_of_pos hpa]
      simp [List.count_cons, ih]
    · rw [List.filter_cons_of_neg (by simpa using hpa)]
      have hak : ¬ (k = a) := fun h => by
        rw [← h] at hpa
        exact hpa hp
      simp [List.count_cons, ih, hak]

/-- C2: every denylisted keyword occurring case-insensitively anywhere in the
statement (including embedded inside an identifier) is reported by exactly one
"Dangerous keyword" error, and the statement is rejected. -/
theorem validate_sql_denylist (s k : String)
    (hk : k ∈ dangerous_keywords)
    (hocc : k.data <:+: upperL s.data) :
    (validate_sql s).valid = false ∧
    ("Dangerous keyword: " ++ k) ∈ (validate_sql s).errors ∧
    (validate_sql s).errors.count ("Dangerous keyword: " ++ k) = 1 := by
  have hfacts : k.data ≠ [] ∧ (∀ c ∈ k.data, wsp c = false) ∧
      dangerous_keywords.count k = 1 ∧
      ¬ ("Query must start with SELECT" = "Dangerous keyword: " ++ k) ∧
      ¬ ("Unbalanced parentheses" = "Dangerous keyword: " ++ k) := by
    simp only [dangerous_keywords, List.mem_cons, List.not_mem_nil, or_false] at hk
    rcases hk with rfl | rfl | rfl | rfl | rfl | rfl | rfl <;>
      exact ⟨by decide, by decide, by decide, by decide, by decide⟩
  have hpredk : containsL (sqlUpperOf s) k.data = true :=
    (containsL_iff _ _).mpr (infix_stripL k.data hfacts.1 hfacts.2.1 _ hocc)
  have hcnt2 : (dangerErrsOf s).count ("Dangerous keyword: " ++ k) = 1 := by
    unfold dangerErrsOf
    rw [count_map_append_eq]
    rw [count_filter_of_pred (fun k2 : String => containsL (sqlUpperOf s) k2.data) k hpredk]
    exact hfacts.2.2.1
  have hcnt1 : (startErrsOf s).count ("Dangerous keyword: " ++ k) = 0 := by
    unfold startErrsOf
    split
    · rfl
    · rw [List.count_singleton]
      simp [hfacts.2.2.2.1]
  have hcnt3 : (parenErrsOf s).count ("Dangerous keyword: " ++ k) = 0 := by
    unfold parenErrsOf
    split
    · rw [List.count_singleton]
      simp [hfacts.2.2.2.2]
    · rfl
  have hcount : (validate_sql s).errors.count ("Dangerous keyword: " ++ k) = 1 := by
    show (startErrsOf s ++ dangerErrsOf s ++ parenErrsOf s).count _ = 1
    rw [List.count_append, List.count_append, hcnt1, hcnt2, hcnt3]
  have hmem : ("Dangerous keyword: " ++ k) ∈ (validate_sql s).errors := by
    refine List.count_pos_iff.mp ?_
    rw [hcount]
    exact Nat.one_pos
  have hval : (validate_sql s).valid = false := by
    show ((startErrsOf s ++ dangerErrsOf s ++ parenErrsOf s).length == 0) = false
    have hne2 : startErrsOf s ++ dangerErrsOf s ++ parenErrsOf s ≠ [] :=
      List.ne_nil_of_mem hmem
    have hlen : (startErrsOf s ++ dangerErrsOf s ++ parenErrsOf s).length ≠ 0 :=
      fun h0 => hne2 (List.length_eq_zero.mp h0)
    rw [beq_eq_false_iff_ne]
    exact hlen
  exact ⟨hval, hmem, hcount⟩

/-- Witness for C2: `DROP` embedded inside the identifier `Dropped` of an
otherwise valid lowercase SELECT is still reported, exactly once. -/
theorem validate_sql_denylist_witness :
    (validate_sql "select * from Dropped").valid = false ∧
    ("Dangerous keyword: " ++ "DROP") ∈ (validate_sql "select * from Dropped").errors ∧
    (validate_sql "select * from Dropped").errors.count ("Dangerous keyword: " ++ "DROP") = 1 :=
  validate_sql_denylist "select * from Dropped" "DROP" (by decide)
    ((containsL_iff (upperL "select * from Dropped".data) "DROP".data).mp (by decide))

/-- JSON values as produced by Python's `json.loads`.  Numbers are modelled as
exact decimals: `num m e` denotes `m / 10 ^ e` (so `1` is `num 1 0` and `0.5`
is `num 5 1`); the model covers the JSON fragment without exponent parts and
without `\u` string escapes, which is all this code base exercises. -/
inductive Json where
  | null : Json
  | bool (b : Bool) : Json
  | num (mantissa : Int) (exp10 : Nat) : Json
  | str (s : String) : Json
  | arr (elems : List Json) : Json
  | obj (fields : List (String × Json)) : Json

/-- JSON insignificant whitespace (space, tab, LF, CR — the same class as
`wsp`). -/
def jsonSkipWs (l : List Char) : List Char := l.dropWhile wsp

/-- Parse the body of a JSON string after the opening quote, handling the
single-character escapes; returns the decoded characters and the remainder
after the closing quote. -/
def parseStringBody : Nat → List Char → Option (List Char × List Char)
  | 0, _ => none
  | _, [] => none
  | f + 1, c :: rest =>
    if c = '"' then some ([], rest)
    else if c = '\\' then
      match rest with
      | [] => none
      | e :: rest2 =>
        let dec : Option Char :=
          if e = '"' then some '"'
          else if e = '\\' then some '\\'
          else if e = '/' then some '/'
          else if e = 'n' then some '\n'
          else if e = 't' then some '\t'
          else if e = 'r' then some '\x0d'
          else if e = 'b' then some '\x08'
          else if e = 'f' then some '\x0c'
          else none
        match dec with
        | none => none
        | some d => (parseStringBody f rest2).map (fun p => (d :: p.1, p.2))
    else (parseStringBody f rest).map (fun p => (c :: p.1, p.2))

/-- Numeric value of a decimal digit character. -/
def digitVal (c : Char) : Nat := c.toNat - 48

/-- Parse a maximal nonempty run of decimal digits: value, digit count,
remainder. -/
def parseDigits (l : List Char) : Option (Nat × Nat × List Char) :=
  if (l.takeWhile Char.isDigit).isEmpty then none
  else some ((l.takeWhile Char.isDigit).foldl (fun acc c => acc * 10 + digitVal c) 0,
             (l.takeWhile Char.isDigit).length,
             l.dropWhile Char.isDigit)

/-- Parse a JSON number (optional minus, integer part, optional fraction). -/
def parseNumber (l : List Char) : Option (Json × List Char) :=
  match l with
  | '-' :: l1 =>
    match parseDigits l1 with
    | none => none
    | some (ip, _, l2) =>
      match l2 with
      | '.' :: l3 =>
        match parseDigits l3 with
        | none => none
        | some (fp, fd, l4) => some (Json.num (-((ip * 10 ^ fd + fp : Nat) : Int)) fd, l4)
      | _ => some (Json.num (-(ip : Int)) 0, l2)
  | _ =>
    match parseDigits l with
    | none => none
    | some (ip, _, l2) =>
      match l2 with
      | '.' :: l3 =>
        match parseDigits l3 with
        | none => none
        | some (fp, fd, l4) => some (Json.num ((ip * 10 ^ fd + fp : Nat) : Int) fd, l4)
      | _ => some (Json.num (ip : Nat) 0, l2)

mutual

/-- Recursive-descent JSON value parser (fuel-indexed). -/
def parseValue : Nat → List Char → Option (Json × List Char)
  | 0, _ => none
  | f + 1, l =>
    match jsonSkipWs l with
    | [] => none
    | c :: rest =>
      if c = '{' then
        match jsonSkipWs rest with
        | '}' :: r2 => some (Json.obj [], r2)
        | _ => parseMembers f rest []
      else if c = '[' then
        match jsonSkipWs rest with
        | ']' :: r2 => some (Json.arr [], r2)
        | _ => parseElements f rest []
      else if c = '"' then
        match parseStringBody (rest.length + 1) rest with
        | none => none
        | some (cs, r2) => some (Json.str ⟨cs⟩, r2)
      else if c = 't' then
        if "rue".data.isPrefixOf rest then some (Json.bool true, rest.drop 3) else none
      else if c = 'f' then
        if "alse".data.isPrefixOf rest then some (Json.bool false, rest.drop 4) else none
      else if c = 'n' then
        if "ull".data.isPrefixOf rest then some (Json.null, rest.drop 3) else none
      else if c = '-' ∨ c.isDigit then parseNumber (c :: rest)
      else none

/-- Parse the members of a JSON object after the opening brace. -/
def parseMembers : Nat → List Char → List (String × Json) → Option (Json × List Char)
  | 0, _, _ => none
  | f + 1, l, acc =>
    match jsonSkipWs l with
    | '"' :: rest =>
      match parseStringBody (rest.length + 1) rest with
      | none => none
      | some (key, r2) =>
        match jsonSkipWs r2 with
        | ':' :: r3 =>
          match parseValue f r3 with
          | none => none
          | some (v, r4) =>
            match jsonSkipWs r4 with
            | ',' :: r5 => parseMembers f r5 (acc ++ [(⟨key⟩, v)])
            | '}' :: r5 => some (Json.obj (acc ++ [(⟨key⟩, v)]), r5)
            | _ => none
        | _ => none
    | _ => none

/-- Parse the elements of a JSON array after the opening bracket. -/
def parseElements : Nat → List Char → List Json → Option (Json × List Char)
  | 0, _, _ => none
  | f + 1, l, acc =>
    match parseValue f l with
    | none => none
    | some (v, r) =>
      match jsonSkipWs r with
      | ',' :: r2 => parseElements f r2 (acc ++ [v])
      | ']' :: r2 => some (Json.arr (acc ++ [v]), r2)
      | _ => none

end

/-- Model of Python `json.loads`: parse one JSON value and require only
whitespace to remain. -/
def jsonLoads (s : String) : Option Json :=
  match parseValue (2 * s.data.length + 2) s.data with
  | none => none
  | some (j, rest) => if (jsonSkipWs rest).isEmpty then some j else none

/-- Fuel-indexed scan modelling one `re.sub(pat + r'\s*', '', text)` pass:
every occurrence of `pat` and the greedy whitespace run following it is
removed, scanning left to right without overlap.  The fuel is the length of
the scanned text, which suffices because every step consumes at least one
character when `pat` is nonempty. -/
def reSubDropAux (pat : List Char) : Nat → List Char → List Char
  | 0, l => l
  | _, [] => []
  | f + 1, c :: rest =>
    if pat ≠ [] ∧ pat.isPrefixOf (c :: rest) then
      reSubDropAux pat f (((c :: rest).drop pat.length).dropWhile wsp)
    else c :: reSubDropAux pat f rest

/-- Removal of a literal pattern plus trailing whitespace, everywhere. -/
def reSubDrop (pat l : List Char) : List Char := reSubDropAux pat l.length l

/-- The cleaned response computed at src/llm_client.py:124-126: strip the
markdown code-fence markers, then surrounding whitespace. -/
def cleanResponse (response : String) : List Char :=
  stripL (reSubDrop "```".data (reSubDrop "```json".data response.data))

/-- The span matched by `re.search(r'\{.*\}', response, re.DOTALL)`: from the
first opening brace to the last closing brace (greedy `.*`), if those exist in
that order. -/
def braceSpan (l : List Char) : Option (List Char) :=
  if (l.dropWhile (· != '{')).isEmpty then none
  else if ((l.dropWhile (· != '{')).reverse.dropWhile (· != '}')).isEmpty then none
  else some ((l.dropWhile (· != '{')).reverse.dropWhile (· != '}')).reverse

/-- Embedding of `LLMClient.parse_json_response` (src/llm_client.py:121-139):
strip code fences, attempt a direct parse, and on failure retry on the greedy
`\{.*\}` span; `none` models the `ValueError` raised when both attempts
fail. -/
def parse_json_response (response : String) : Option Json :=
  match jsonLoads ⟨cleanResponse response⟩ with
  | some j => some j
  | none =>
    match braceSpan (cleanResponse response) with
    | some m => jsonLoads ⟨m⟩
    | none => none

/-- Walk a brace-balanced span: take characters until the brace depth first
returns to zero, starting from an opening brace. -/
def takeBalanced : Nat → List Char → Option (List Char)
  | _, [] => none
  | d, c :: rest =>
    if c = '{' then (takeBalanced (d + 1) rest).map (fun m => c :: m)
    else if c = '}' then
      if d = 1 then some [c]
      else if d = 0 then none
      else (takeBalanced (d - 1) rest).map (fun m => c :: m)
    else (takeBalanced d rest).map (fun m => c :: m)

/-- Modelled from the spec: the "first balanced `{...}` span" of a text — the
shortest textually brace-balanced span starting at the first opening brace. -/
def firstBalancedSpan (l : List Char) : Option (List Char) :=
  if (l.dropWhile (· != '{')).isEmpty then none
  else takeBalanced 0 (l.dropWhile (· != '{'))

/-- Modelled from the spec: `extract_json` as the specification words it —
identical to `parse_json_response` except that the retry parses the first
balanced `{...}` span instead of the greedy first-`{`-to-last-`}` span. -/
def parse_json_response_spec (response : String) : Option Json :=
  match jsonLoads ⟨cleanResponse response⟩ with
  | some j => some j
  | none =>
    match firstBalancedSpan (cleanResponse response) with
    | some m => jsonLoads ⟨m⟩
    | none => none


/-- The head of a nonempty `dropWhile` residue fails the predicate. -/
theorem dropWhile_head_false (p : Char → Bool) :
    ∀ (l : List Char) (c : Char) (rest : List Char),
      List.dropWhile p l = c :: rest → p c = false := by
  intro l
  induction l with
  | nil =>
    intro c rest h
    exact absurd h (by simp)
  | cons a t ih =>
    intro c rest h
    rw [List.dropWhile_cons] at h
    by_cases hpa : p a = true
    · rw [if_pos hpa] at h
      exact ih c rest h
    · rw [if_neg hpa] at h
      injection h with h1 h2
      subst h1
      simpa using hpa

/-- `dropWhile` skips over a block whose characters all satisfy the
predicate. -/
theorem dropWhile_append_all (p : Char → Bool) (a l : List Char)
    (ha : ∀ c ∈ a, p c = true) : (a ++ l).dropWhile p = l.dropWhile p := by
  induction a with
  | nil => rfl
  | cons x t ih =>
    rw [List.cons_append, List.dropWhile_cons, if_pos (ha x (by simp))]
    exact ih (fun c hc => ha c (by simp [hc]))

/-- Declarative characterisation of the greedy `\{.*\}` match: `braceSpan`
returns `m` exactly when the text decomposes as `a ++ m ++ b` with no `{`
before `m`, no `}` after it, `m` starting with `{` and ending with `}`. -/
theorem braceSpan_eq_some_iff (l m : List Char) :
    braceSpan l = some m ↔
      ∃ a b, l = a ++ m ++ b ∧ '{' ∉ a ∧ '}' ∉ b ∧
        m.head? = some '{' ∧ m.getLast? = some '}' := by
  constructor
  · intro h
    unfold braceSpan at h
    split at h
    · exact absurd h (by simp)
    · split at h
      · exact absurd h (by simp)
      · rename_i h1 h2
        injection h with hm
        have hl : List.takeWhile (· != '{') l ++ List.dropWhile (· != '{') l = l :=
          List.takeWhile_append_dropWhile _ _
        have ht : List.takeWhile (· != '}') (List.dropWhile (· != '{') l).reverse ++
            List.dropWhile (· != '}') (List.dropWhile (· != '{') l).reverse =
            (List.dropWhile (· != '{') l).reverse :=
          List.takeWhile_append_dropWhile _ _
        have hrevt := congrArg List.reverse ht
        rw [List.reverse_append, List.reverse_reverse] at hrevt
        have hdec : List.dropWhile (· != '{') l =
            m ++ (List.takeWhile (· != '}') (List.dropWhile (· != '{') l).reverse).reverse := by
          rw [← hm]
          exact hrevt.symm
        have htne : List.dropWhile (· != '{') l ≠ [] := by
          intro h0
          rw [h0] at h1
          exact h1 rfl
        have hrne : List.dropWhile (· != '}') (List.dropWhile (· != '{') l).reverse ≠ [] := by
          intro h0
          rw [h0] at h2
          exact h2 rfl
        obtain ⟨c, t2, hct⟩ := List.exists_cons_of_ne_nil htne
        have hceq : c = '{' := by simpa using dropWhile_head_false _ l c t2 hct
        obtain ⟨c2, r2, hcr⟩ := List.exists_cons_of_ne_nil hrne
        have hc2eq : c2 = '}' := by simpa using dropWhile_head_false _ _ c2 r2 hcr
        have hmne : m ≠ [] := by
          rw [← hm]
          simp only [ne_eq, List.reverse_eq_nil_iff]
          exact hrne
        refine ⟨List.takeWhile (· != '{') l,
          (List.takeWhile (· != '}') (List.dropWhile (· != '{') l).reverse).reverse,
          ?_, ?_, ?_, ?_, ?_⟩
        · rw [List.append_assoc, ← hdec]
          exact hl.symm
        · intro hc
          have := List.mem_takeWhile_imp hc
          simp at this
        · intro hc
          rw [List.mem_reverse] at hc
          have := List.mem_takeWhile_imp hc
          simp at this
        · obtain ⟨x, xs, rfl⟩ := List.exists_cons_of_ne_nil hmne
          have hcx := hct.symm.trans hdec
          rw [List.cons_append] at hcx
          injection hcx with hx1 hx2
          rw [List.head?_cons, ← hx1, hceq]
        · rw [← hm, List.getLast?_reverse, hcr, List.head?_cons, hc2eq]
  · rintro ⟨a, b, rfl, ha, hb, hh, hl2⟩
    obtain ⟨m₁, rfl⟩ : ∃ m₁, m = '{' :: m₁ := by
      cases m with
      | nil => cases hh
      | cons x xs =>
        injection hh with hx
        rw [hx]
        exact ⟨xs, rfl⟩
    have hstep1 : List.dropWhile (· != '{') (a ++ ('{' :: m₁) ++ b) = ('{' :: m₁) ++ b := by
      rw [List.append_assoc]
      rw [dropWhile_append_all _ a _ (fun c hc => by
        have hcne : c ≠ '{' := fun hceq => ha (hceq ▸ hc)
        simpa using hcne)]
      rw [List.cons_append, List.dropWhile_cons]
      simp
    obtain ⟨w, hw⟩ : ∃ w, ('{' :: m₁).reverse = '}' :: w := by
      have hhr : ('{' :: m₁).reverse.head? = some '}' := by
        rw [List.head?_reverse]
        exact hl2
      cases hrv : ('{' :: m₁).reverse with
      | nil =>
        rw [hrv] at hhr
        cases hhr
      | cons y ys =>
        rw [hrv] at hhr
        injection hhr with hy
        rw [hy]
        exact ⟨ys, rfl⟩
    have hstep2 : List.dropWhile (· != '}') (('{' :: m₁) ++ b).reverse =
        ('{' :: m₁).reverse := by
      rw [List.reverse_append]
      rw [dropWhile_append_all _ b.reverse _ (fun c hc => by
        have hcne : c ≠ '}' := fun hceq => hb (hceq ▸ List.mem_reverse.mp hc)
        simpa using hcne)]
      rw [hw, List.dropWhile_cons]
      simp
    unfold braceSpan
    rw [hstep1, hstep2]
    rw [if_neg (by simp)]
    rw [if_neg (by rw [hw]; simp)]
    rw [List.reverse_reverse]

/-- C8 (amended): `parse_json_response` strips code fences, attempts a direct
parse, and on failure retries on the greedy span from the first `{` to the
last `}` (the `\{.*\}` regex match) — not on the first balanced span; it fails
exactly when the direct parse fails and the greedy-span parse fails or no such
span exists. -/
theorem parse_json_response_greedy_retry (r : String) :
    (∀ j, jsonLoads ⟨cleanResponse r⟩ = some j → parse_json_response r = some j) ∧
    (jsonLoads ⟨cleanResponse r⟩ = none →
      ∀ a m b, cleanResponse r = a ++ m ++ b → '{' ∉ a → '}' ∉ b →
        m.head? = some '{' → m.getLast? = some '}' →
        parse_json_response r = jsonLoads ⟨m⟩) ∧
    (parse_json_response r = none ↔
      (jsonLoads ⟨cleanResponse r⟩ = none ∧
        ∀ a m b, cleanResponse r = a ++ m ++ b → '{' ∉ a → '}' ∉ b →
          m.head? = some '{' → m.getLast? = some '}' → jsonLoads ⟨m⟩ = none)) := by
  refine ⟨?_, ?_, ?_⟩
  · intro j hj
    unfold parse_json_response
    rw [hj]
  · intro hnone a m b hd hA hB hH hL
    have hbs : braceSpan (cleanResponse r) = some m :=
      (braceSpan_eq_some_iff _ _).mpr ⟨a, b, hd, hA, hB, hH, hL⟩
    unfold parse_json_response
    rw [hnone, hbs]
  · constructor
    · intro h
      unfold parse_json_response at h
      cases hj : jsonLoads ⟨cleanResponse r⟩ with
      | some j =>
        rw [hj] at h
        exact Option.noConfusion h
      | none =>
        rw [hj] at h
        refine ⟨rfl, ?_⟩
        intro a m b hd hA hB hH hL
        have hbs : braceSpan (cleanResponse r) = some m :=
          (braceSpan_eq_some_iff _ _).mpr ⟨a, b, hd, hA, hB, hH, hL⟩
        rw [hbs] at h
        exact h
    · rintro ⟨h1, h2⟩
      unfold parse_json_response
      rw [h1]
      cases hbs : braceSpan (cleanResponse r) with
      | none => rfl
      | some m =>
        obtain ⟨a, b, hd, hA, hB, hH, hL⟩ := (braceSpan_eq_some_iff _ _).mp hbs
        exact h2 a m b hd hA hB hH hL

/-- Witness for C8's amended behaviour: prose before a JSON object makes the
direct parse fail and the greedy-span retry succeed. -/
theorem parse_json_response_greedy_retry_witness :
    parse_json_response "x\x7b\"a\":1\x7d" = some (Json.obj [("a", Json.num 1 0)]) := by
  have h := (parse_json_response_greedy_retry "x\x7b\"a\":1\x7d").2.1 (by rfl)
      ['x'] "\x7b\"a\":1\x7d".data [] (by decide) (by decide) (by decide) (by rfl) (by rfl)
  exact h.trans (by rfl)

/-- C8 counterexample: on the text between the quotes of
`'{"a": 1} }'` the code's retry span runs from the first `{` to the last `}`
(unbalanced, so parsing fails and the whole call fails), while the
first-balanced-span reading of the claim would succeed with `{"a": 1}`. -/
theorem parse_json_response_not_first_balanced_span :
    parse_json_response "\x7b\"a\": 1\x7d \x7d" = none ∧
    parse_json_response_spec "\x7b\"a\": 1\x7d \x7d" =
      some (Json.obj [("a", Json.num 1 0)]) :=
  ⟨rfl, rfl⟩

/-- The fixed keyword set of `LLMClient._fallback_query_analysis`
(src/llm_client.py:178), in source order. -/
def statistical_keywords : List String :=
  ["count", "sum", "average", "total", "how many"]

/-- Embedding of `LLMClient._fallback_query_analysis`
(src/llm_client.py:174-189): the deterministic analysis used when the
completion cannot be parsed. -/
def fallback_query_analysis (query : String) : Json :=
  Json.obj
    [("type", Json.str (if statistical_keywords.any
        (fun w => containsL (lowerL query.data) w.data) then "statistical" else "general")),
     ("intent", Json.str query),
     ("columns", Json.arr []),
     ("analysis_type", Json.str "descriptive"),
     ("confidence", Json.num 5 1)]

/-- Embedding of the parse-or-fallback step of `LLMClient.analyze_query`
(src/llm_client.py:164-172), with the gateway's completion text as an explicit
parameter: a `ValueError` from parsing is caught and answered with the
fallback analysis. -/
def analyze_query (completion query : String) : Json :=
  match parse_json_response completion with
  | some analysis => analysis
  | none => fallback_query_analysis query

/-- Field access on a JSON object (Python dict subscript). -/
def jsonLookup (j : Json) (key : String) : Option Json :=
  match j with
  | Json.obj fields => fields.lookup key
  | _ => none

/-- C6: when the completion text cannot be parsed, `analyze_query` does not
fail but returns the fallback analysis: confidence `0.5` (`num 5 1`), type
`statistical` exactly when the lowercased question contains one of the fixed
keywords, empty column list, and `analysis_type` `descriptive`. -/
theorem analyze_query_fallback (completion query : String)
    (h : parse_json_response completion = none) :
    analyze_query completion query = fallback_query_analysis query ∧
    jsonLookup (analyze_query completion query) "confidence" = some (Json.num 5 1) ∧
    (jsonLookup (analyze_query completion query) "type" = some (Json.str "statistical") ↔
      ∃ w ∈ statistical_keywords, w.data <:+: lowerL query.data) ∧
    (jsonLookup (analyze_query completion query) "type" = some (Json.str "statistical") ∨
      jsonLookup (analyze_query completion query) "type" = some (Json.str "general")) ∧
    jsonLookup (analyze_query completion query) "columns" = some (Json.arr []) ∧
    jsonLookup (analyze_query completion query) "analysis_type" =
      some (Json.str "descriptive") := by
  have heq : analyze_query completion query = fallback_query_analysis query := by
    unfold analyze_query
    rw [h]
  have hty : jsonLookup (fallback_query_analysis query) "type" =
      some (Json.str (if statistical_keywords.any
        (fun w => containsL (lowerL query.data) w.data) then "statistical"
        else "general")) := rfl
  refine ⟨heq, ?_, ?_, ?_, ?_, ?_⟩
  · rw [heq]
    rfl
  · rw [heq, hty]
    by_cases hcond : (statistical_keywords.any
        (fun w => containsL (lowerL query.data) w.data)) = true
    · rw [if_pos hcond]
      constructor
      · intro _
        obtain ⟨w, hw, hcw⟩ := List.any_eq_true.mp hcond
        exact ⟨w, hw, (containsL_iff _ _).mp hcw⟩
      · intro _
        rfl
    · rw [if_neg hcond]
      constructor
      · intro hx
        injection hx with hx1
        injection hx1 with hx2
        exact absurd hx2 (by decide)
      · rintro ⟨w, hw, hiw⟩
        exact absurd (List.any_eq_true.mpr ⟨w, hw, (containsL_iff _ _).mpr hiw⟩) hcond
  · rw [heq, hty]
    by_cases hcond : (statistical_keywords.any
        (fun w => containsL (lowerL query.data) w.data)) = true
    · left
      rw [if_pos hcond]
    · right
      rw [if_neg hcond]
  · rw [heq]
    rfl
  · rw [heq]
    rfl

/-- Witness for C6: an unparseable completion together with a question
containing `how many` yields the statistical fallback. -/
theorem analyze_query_fallback_witness :
    analyze_query "not json" "How many rows are there" =
      fallback_query_analysis "How many rows are there" ∧
    jsonLookup (analyze_query "not json" "How many rows are there") "type" =
      some (Json.str "statistical") := by
  have h := analyze_query_fallback "not json" "How many rows are there" (by rfl)
  refine ⟨h.1, h.2.2.1.mpr ?_⟩
  refine ⟨"how many", by decide, ?_⟩
  exact (containsL_iff (lowerL "How many rows are there".data) "how many".data).mp (by decide)

/-- First index at which a predicate on the remaining suffix holds, scanning
left to right (the start position search of `re.search`). -/
def firstIdxWhere (pred : List Char → Bool) : List Char → Option Nat
  | [] => if pred [] then some 0 else none
  | c :: rest => if pred (c :: rest) then some 0 else (firstIdxWhere pred rest).map (· + 1)

/-- A match of the opening fence of the first regex at src/llm_client.py:221,
on the uppercased text (the regex is case-insensitive). -/
def fenceOpenPred (t : List Char) : Bool := "```SQL".data.isPrefixOf t

/-- A match of the closing fence. -/
def fenceClosePred (t : List Char) : Bool := "```".data.isPrefixOf t

/-- A match start of the second regex at src/llm_client.py:226: `SELECT`
followed by at least one whitespace character (`SELECT\s+`), on the
uppercased text. -/
def selectPred (t : List Char) : Bool :=
  "SELECT".data.isPrefixOf t &&
    (match t.drop 6 with
     | c :: _ => c.isWhitespace
     | [] => false)

/-- The terminator alternative `(?:;|$)`: a semicolon at this position. -/
def semiPred (t : List Char) : Bool :=
  match t with
  | ';' :: _ => true
  | _ => false

/-- The SELECT branch and verbatim fallback of `LLMClient._extract_sql`
(src/llm_client.py:226-230): the span from the first `SELECT\s` up to and
including the first semicolon, or to the end of the text, stripped; else the
stripped response. -/
def extractSelectOrTrim (l u : List Char) : String :=
  match firstIdxWhere selectPred u with
  | some i =>
    match firstIdxWhere semiPred ((l.drop i).drop 6) with
    | some j => ⟨stripL ((l.drop i).take (6 + j + 1))⟩
    | none => ⟨stripL (l.drop i)⟩
  | none => ⟨stripL l⟩

/-- Embedding of `LLMClient._extract_sql` (src/llm_client.py:218-230): prefer
the content of the first case-insensitive ```sql fenced block (up to the next
closing fence), stripped; else the first `SELECT` span; else the stripped
response verbatim. -/
def extract_sql (response : String) : String :=
  match firstIdxWhere fenceOpenPred (upperL response.data) with
  | some i =>
    match firstIdxWhere fenceClosePred ((upperL response.data).drop (i + 6)) with
    | some j => ⟨stripL ((response.data.drop (i + 6)).take j)⟩
    | none => extractSelectOrTrim response.data (upperL response.data)
  | none => extractSelectOrTrim response.data (upperL response.data)

/-- `firstIdxWhere` returns exactly the least index whose suffix satisfies the
predicate. -/
theorem firstIdxWhere_eq_some_iff (pred : List Char → Bool) :
    ∀ (l : List Char) (i : Nat),
      firstIdxWhere pred l = some i ↔
        (pred (l.drop i) = true ∧ ∀ k < i, pred (l.drop k) = false) := by
  intro l
  induction l with
  | nil =>
    intro i
    unfold firstIdxWhere
    by_cases hp : pred [] = true
    · rw [if_pos hp]
      constructor
      · intro h
        injection h with h0
        subst h0
        exact ⟨hp, by omega⟩
      · rintro ⟨h1, h2⟩
        by_cases hi : i = 0
        · rw [hi]
        · exact absurd hp (by simpa using h2 0 (by omega))
    · rw [if_neg hp]
      constructor
      · intro h
        exact Option.noConfusion h
      · rintro ⟨h1, h2⟩
        rw [List.drop_nil] at h1
        exact absurd h1 hp
  | cons c rest ih =>
    intro i
    unfold firstIdxWhere
    by_cases hp : pred (c :: rest) = true
    · rw [if_pos hp]
      constructor
      · intro h
        injection h with h0
        subst h0
        exact ⟨hp, by omega⟩
      · rintro ⟨h1, h2⟩
        by_cases hi : i = 0
        · rw [hi]
        · exact absurd hp (by simpa using h2 0 (by omega))
    · rw [if_neg hp]
      constructor
      · intro h
        rw [Option.map_eq_some'] at h
        obtain ⟨i0, hi0, hplus⟩ := h
        obtain ⟨h1, h2⟩ := (ih i0).mp hi0
        subst hplus
        refine ⟨by simpa using h1, ?_⟩
        intro k hk
        cases k with
        | zero => simpa using hp
        | succ k0 =>
          rw [List.drop_succ_cons]
          exact h2 k0 (by omega)
      · rintro ⟨h1, h2⟩
        cases i with
        | zero => exact absurd (by simpa using h1) hp
        | succ i0 =>
          rw [Option.map_eq_some']
          refine ⟨i0, (ih i0).mpr ⟨by simpa using h1, ?_⟩, rfl⟩
          intro k hk
          have := h2 (k + 1) (by omega)
          rw [List.drop_succ_cons] at this
          exact this

/-- `firstIdxWhere` returns `none` exactly when no suffix satisfies the
predicate. -/
theorem firstIdxWhere_eq_none_iff (pred : List Char → Bool) :
    ∀ l : List Char, firstIdxWhere pred l = none ↔ ∀ i, pred (l.drop i) = false := by
  intro l
  induction l with
  | nil =>
    unfold firstIdxWhere
    by_cases hp : pred [] = true
    · rw [if_pos hp]
      constructor
      · intro h
        exact Option.noConfusion h
      · intro h
        exact absurd (by simpa using h 0) (by simp [hp])
    · rw [if_neg hp]
      constructor
      · intro _ i
        rw [List.drop_nil]
        simpa using hp
      · intro _
        rfl
  | cons c rest ih =>
    unfold firstIdxWhere
    by_cases hp : pred (c :: rest) = true
    · rw [if_pos hp]
      constructor
      · intro h
        exact Option.noConfusion h
      · intro h
        exact absurd (by simpa using h 0) (by simp [hp])
    · rw [if_neg hp]
      rw [Option.map_eq_none']
      rw [ih]
      constructor
      · intro h i
        cases i with
        | zero => simpa using hp
        | succ i0 =>
          rw [List.drop_succ_cons]
          exact h i0
      · intro h i
        have := h (i + 1)
        rw [List.drop_succ_cons] at this
        exact this

/-- When no complete fenced block exists (no opening fence at all, or no
closing fence after the opening), `_extract_sql` falls through to the SELECT
branch. -/
theorem extract_sql_no_fence (r : String)
    (hnofence : ∀ i, fenceOpenPred ((upperL r.data).drop i) = false ∨
        ∀ j, fenceClosePred (((upperL r.data).drop (i + 6)).drop j) = false) :
    extract_sql r = extractSelectOrTrim r.data (upperL r.data) := by
  unfold extract_sql
  cases ho : firstIdxWhere fenceOpenPred (upperL r.data) with
  | none => rfl
  | some i0 =>
    have hoi0 := ((firstIdxWhere_eq_some_iff _ _ _).mp ho).1
    rcases hnofence i0 with hl | hr
    · rw [hoi0] at hl
      exact Bool.noConfusion hl
    · have hcn : firstIdxWhere fenceClosePred ((upperL r.data).drop (i0 + 6)) = none :=
        (firstIdxWhere_eq_none_iff _ _).mpr hr
      have hred : (match firstIdxWhere fenceClosePred ((upperL r.data).drop (i0 + 6)) with
          | some j => (⟨stripL ((r.data.drop (i0 + 6)).take j)⟩ : String)
          | none => extractSelectOrTrim r.data (upperL r.data)) =
          extractSelectOrTrim r.data (upperL r.data) := by
        rw [hcn]
      exact hred

/-- C7: `_extract_sql` never fails and applies its three strategies in
priority order: the first complete case-insensitive ```sql fenced block yields
exactly the fenced contents, trimmed, with no fence markers; otherwise the
span from the first `SELECT` followed by whitespace, up to and including the
first semicolon or to the end of the text, trimmed; otherwise the trimmed
input verbatim. -/
theorem extract_sql_branches (r : String) :
    (∀ i j,
      fenceOpenPred ((upperL r.data).drop i) = true →
      (∀ k < i, fenceOpenPred ((upperL r.data).drop k) = false) →
      fenceClosePred (((upperL r.data).drop (i + 6)).drop j) = true →
      (∀ k < j, fenceClosePred (((upperL r.data).drop (i + 6)).drop k) = false) →
      extract_sql r = ⟨stripL ((r.data.drop (i + 6)).take j)⟩) ∧
    ((∀ i, fenceOpenPred ((upperL r.data).drop i) = false ∨
        ∀ j, fenceClosePred (((upperL r.data).drop (i + 6)).drop j) = false) →
      ∀ i, selectPred ((upperL r.data).drop i) = true →
        (∀ k < i, selectPred ((upperL r.data).drop k) = false) →
        ((∀ j, semiPred (((r.data.drop i).drop 6).drop j) = true →
            (∀ k < j, semiPred (((r.data.drop i).drop 6).drop k) = false) →
            extract_sql r = ⟨stripL ((r.data.drop i).take (6 + j + 1))⟩) ∧
          ((∀ j, semiPred (((r.data.drop i).drop 6).drop j) = false) →
            extract_sql r = ⟨stripL (r.data.drop i)⟩))) ∧
    ((∀ i, fenceOpenPred ((upperL r.data).drop i) = false ∨
        ∀ j, fenceClosePred (((upperL r.data).drop (i + 6)).drop j) = false) →
      (∀ i, selectPred ((upperL r.data).drop i) = false) →
      extract_sql r = ⟨stripL r.data⟩) := by
  refine ⟨?_, ?_, ?_⟩
  · intro i j hoi homin hcj hcmin
    have ho : firstIdxWhere fenceOpenPred (upperL r.data) = some i :=
      (firstIdxWhere_eq_some_iff _ _ _).mpr ⟨hoi, homin⟩
    have hc : firstIdxWhere fenceClosePred ((upperL r.data).drop (i + 6)) = some j :=
      (firstIdxWhere_eq_some_iff _ _ _).mpr ⟨hcj, hcmin⟩
    unfold extract_sql
    rw [ho]
    have hred : (match firstIdxWhere fenceClosePred ((upperL r.data).drop (i + 6)) with
        | some j2 => (⟨stripL ((r.data.drop (i + 6)).take j2)⟩ : String)
        | none => extractSelectOrTrim r.data (upperL r.data)) =
        ⟨stripL ((r.data.drop (i + 6)).take j)⟩ := by
      rw [hc]
    exact hred
  · intro hnofence i hsi hsmin
    have hselect : firstIdxWhere selectPred (upperL r.data) = some i :=
      (firstIdxWhere_eq_some_iff _ _ _).mpr ⟨hsi, hsmin⟩
    have hext := extract_sql_no_fence r hnofence
    constructor
    · intro j hsj hsjmin
      have hsemi : firstIdxWhere semiPred ((r.data.drop i).drop 6) = some j :=
        (firstIdxWhere_eq_some_iff _ _ _).mpr ⟨hsj, hsjmin⟩
      rw [hext]
      unfold extractSelectOrTrim
      rw [hselect]
      have hred : (match firstIdxWhere semiPred ((r.data.drop i).drop 6) with
          | some j2 => (⟨stripL ((r.data.drop i).take (6 + j2 + 1))⟩ : String)
          | none => (⟨stripL (r.data.drop i)⟩ : String)) =
          ⟨stripL ((r.data.drop i).take (6 + j + 1))⟩ := by
        rw [hsemi]
      exact hred
    · intro hnosemi
      have hsemin : firstIdxWhere semiPred ((r.data.drop i).drop 6) = none :=
        (firstIdxWhere_eq_none_iff _ _).mpr hnosemi
      rw [hext]
      unfold extractSelectOrTrim
      rw [hselect]
      have hred : (match firstIdxWhere semiPred ((r.data.drop i).drop 6) with
          | some j2 => (⟨stripL ((r.data.drop i).take (6 + j2 + 1))⟩ : String)
          | none => (⟨stripL (r.data.drop i)⟩ : String)) =
          ⟨stripL (r.data.drop i)⟩ := by
        rw [hsemin]
      exact hred
  · intro hnofence hnoselect
    rw [extract_sql_no_fence r hnofence]
    unfold extractSelectOrTrim
    rw [(firstIdxWhere_eq_none_iff _ _).mpr hnoselect]

/-- Witness for C7 at a response wrapping a SELECT in a fenced code block: the
result is exactly the fenced contents, trimmed, with no fence markers. -/
theorem extract_sql_branches_witness :
    extract_sql "```sql\nSELECT 1\n```" = "SELECT 1" := by
  have h := (extract_sql_branches "```sql\nSELECT 1\n```").1 0 10
      (by decide) (by decide) (by decide) (by decide)
  exact h.trans (by decide)

/-- One result row of the executor: a mapping from column name to value
(`dict(row)` at src/analytics_service.py:95). -/
def ResultRow := List (String × Json)

/-- The dict returned by `LLMClient.generate_sql` (src/llm_client.py:216). -/
structure SqlResult where
  sql : String
  explanation : String

/-- The result envelope of `AnalyticsService.analyze_query_full`: the union of
the dicts returned at src/analytics_service.py:146-151, 170-178 and 182-186,
with `none` marking keys absent from the dict actually returned. -/
structure PipelineOutcome where
  success : Bool
  error : Option String
  analysis : Option Json
  sql : Option String
  sql_explanation : Option String
  data : Option (List ResultRow)
  data_count : Option Nat
  insights : Option String
  user_query : Option String

/-- The stage behaviours the orchestrator invokes.  The three Groq-backed
stages and the database executor perform network and database effects, so
they are modelled as parameters returning `Except String _`; `.error e`
models an exception with message `e` escaping that stage. -/
structure PipelineEnv where
  analyze : String → Except String Json
  generate_sql : String → Json → Except String SqlResult
  execute_sql : String → Except String (List ResultRow)
  generate_insights : String → List ResultRow → Json → Except String String

/-- The dict built by the outer exception handler
(src/analytics_service.py:180-186): only `success`, `error` and `user_query`
are present — no artifacts of earlier stages. -/
def failedOutcome (e q : String) : PipelineOutcome :=
  { success := false, error := some e, analysis := none, sql := none,
    sql_explanation := none, data := none, data_count := none,
    insights := none, user_query := some q }

/-- Steps 5 of the pipeline (src/analytics_service.py:159-178): generate
insights and assemble the success envelope. -/
def afterExecute (env : PipelineEnv) (q : String) (a : Json) (sr : SqlResult)
    (data : List ResultRow) : PipelineOutcome :=
  match env.generate_insights q data a with
  | .error e => failedOutcome e q
  | .ok insights =>
    { success := true, error := none, analysis := some a, sql := some sr.sql,
      sql_explanation := some sr.explanation, data := some data,
      data_count := some data.length, insights := some insights,
      user_query := none }

/-- Steps 3-4 of the pipeline (src/analytics_service.py:143-157): validate
with the real `validate_sql`; on failure return the early envelope carrying
the composed error message, the analysis and the statement; on success
execute. -/
def afterValidate (env : PipelineEnv) (q : String) (a : Json)
    (sr : SqlResult) : PipelineOutcome :=
  if (validate_sql sr.sql).valid then
    match env.execute_sql sr.sql with
    | .error e => failedOutcome e q
    | .ok data => afterExecute env q a sr data
  else
    { success := false,
      error := some ("SQL validation failed: " ++
        String.intercalate ", " (validate_sql sr.sql).errors),
      analysis := some a, sql := some sr.sql, sql_explanation := none,
      data := none, data_count := none, insights := none, user_query := none }

/-- Step 2 of the pipeline (src/analytics_service.py:136-141). -/
def afterAnalyze (env : PipelineEnv) (q : String) (a : Json) : PipelineOutcome :=
  match env.generate_sql q a with
  | .error e => failedOutcome e q
  | .ok sr => afterValidate env q a sr

/-- Embedding of `AnalyticsService.analyze_query_full`
(src/analytics_service.py:106-186): the five stages in sequence inside the
outer `try`, whose handler produces `failedOutcome`. -/
def analyze_query_full (env : PipelineEnv) (user_query : String) : PipelineOutcome :=
  match env.analyze user_query with
  | .error e => failedOutcome e user_query
  | .ok a => afterAnalyze env user_query a

/-- C4: when the synthesized statement fails validation, the orchestrator
returns a failure whose message lists all validation errors, still carrying
the partial analysis and the statement; no rows are attached, and the
executor is never consulted — the outcome is invariant under replacing it. -/
theorem analyze_query_full_validation_failure (env : PipelineEnv) (q : String)
    (a : Json) (sr : SqlResult)
    (h1 : env.analyze q = .ok a)
    (h2 : env.generate_sql q a = .ok sr)
    (h3 : (validate_sql sr.sql).valid = false) :
    analyze_query_full env q =
      { success := false,
        error := some ("SQL validation failed: " ++
          String.intercalate ", " (validate_sql sr.sql).errors),
        analysis := some a, sql := some sr.sql, sql_explanation := none,
        data := none, data_count := none, insights := none,
        user_query := none } ∧
    ∀ ex, analyze_query_full { env with execute_sql := ex } q =
      analyze_query_full env q := by
  have key : ∀ env2 : PipelineEnv, env2.analyze q = .ok a →
      env2.generate_sql q a = .ok sr →
      analyze_query_full env2 q =
        { success := false,
          error := some ("SQL validation failed: " ++
            String.intercalate ", " (validate_sql sr.sql).errors),
          analysis := some a, sql := some sr.sql, sql_explanation := none,
          data := none, data_count := none, insights := none,
          user_query := none } := by
    intro env2 k1 k2
    unfold analyze_query_full
    rw [k1]
    show afterAnalyze env2 q a = _
    unfold afterAnalyze
    rw [k2]
    show afterValidate env2 q a sr = _
    unfold afterValidate
    rw [if_neg (by simp [h3])]
  have hmain := key env h1 h2
  refine ⟨hmain, ?_⟩
  intro ex
  rw [hmain, key { env with execute_sql := ex } h1 h2]

/-- Witness for C4: a synthesizer returning `DELETE FROM orders` drives the
orchestrator to the validation-failure envelope without executing. -/
theorem analyze_query_full_validation_failure_witness :
    analyze_query_full
      { analyze := fun _ => .ok (Json.obj []),
        generate_sql := fun _ _ => .ok { sql := "DELETE FROM orders", explanation := "" },
        execute_sql := fun _ => .ok [],
        generate_insights := fun _ _ _ => .ok "" } "how many orders" =
      { success := false,
        error := some ("SQL validation failed: " ++ String.intercalate ", "
          (validate_sql "DELETE FROM orders").errors),
        analysis := some (Json.obj []), sql := some "DELETE FROM orders",
        sql_explanation := none, data := none, data_count := none,
        insights := none, user_query := none } :=
  (analyze_query_full_validation_failure _ "how many orders" (Json.obj [])
    { sql := "DELETE FROM orders", explanation := "" } rfl rfl (by decide)).1

/-- C5: the orchestrator never propagates a stage fault: an exception in any
stage yields the handler's envelope, which carries only the error message and
the original question — no artifacts of earlier successful stages; and every
unsuccessful outcome carries an error message. -/
theorem analyze_query_full_graceful (env : PipelineEnv) (q : String) :
    (∀ e, env.analyze q = .error e →
      analyze_query_full env q = failedOutcome e q) ∧
    (∀ a e, env.analyze q = .ok a → env.generate_sql q a = .error e →
      analyze_query_full env q = failedOutcome e q) ∧
    (∀ a sr e, env.analyze q = .ok a → env.generate_sql q a = .ok sr →
      (validate_sql sr.sql).valid = true → env.execute_sql sr.sql = .error e →
      analyze_query_full env q = failedOutcome e q) ∧
    (∀ a sr data e, env.analyze q = .ok a → env.generate_sql q a = .ok sr →
      (validate_sql sr.sql).valid = true → env.execute_sql sr.sql = .ok data →
      env.generate_insights q data a = .error e →
      analyze_query_full env q = failedOutcome e q) ∧
    ((analyze_query_full env q).success = false →
      (analyze_query_full env q).error ≠ none) ∧
    failedOutcome = (fun e q2 =>
      { success := false, error := some e, analysis := none, sql := none,
        sql_explanation := none, data := none, data_count := none,
        insights := none, user_query := some q2 }) := by
  refine ⟨?_, ?_, ?_, ?_, ?_, rfl⟩
  · intro e he
    unfold analyze_query_full
    rw [he]
  · intro a e ha hg
    unfold analyze_query_full
    rw [ha]
    show afterAnalyze env q a = _
    unfold afterAnalyze
    rw [hg]
  · intro a sr e ha hg hv hex
    unfold analyze_query_full
    rw [ha]
    show afterAnalyze env q a = _
    unfold afterAnalyze
    rw [hg]
    show afterValidate env q a sr = _
    unfold afterValidate
    rw [if_pos hv, hex]
  · intro a sr data e ha hg hv hex hins
    unfold analyze_query_full
    rw [ha]
    show afterAnalyze env q a = _
    unfold afterAnalyze
    rw [hg]
    show afterValidate env q a sr = _
    unfold afterValidate
    rw [if_pos hv, hex]
    show afterExecute env q a sr data = _
    unfold afterExecute
    rw [hins]
  · intro hsf
    unfold analyze_query_full at hsf ⊢
    cases ha : env.analyze q with
    | error e =>
      intro hc
      exact Option.noConfusion hc
    | ok a =>
      rw [ha] at hsf
      have hsf2 : (afterAnalyze env q a).success = false := hsf
      show (afterAnalyze env q a).error ≠ none
      unfold afterAnalyze at hsf2 ⊢
      cases hg : env.generate_sql q a with
      | error e =>
        intro hc
        exact Option.noConfusion hc
      | ok sr =>
        rw [hg] at hsf2
        have hsf3 : (afterValidate env q a sr).success = false := hsf2
        show (afterValidate env q a sr).error ≠ none
        unfold afterValidate at hsf3 ⊢
        by_cases hv : (validate_sql sr.sql).valid = true
        · rw [if_pos hv] at hsf3 ⊢
          cases hex : env.execute_sql sr.sql with
          | error e =>
            intro hc
            exact Option.noConfusion hc
          | ok data =>
            rw [hex] at hsf3
            have hsf4 : (afterExecute env q a sr data).success = false := hsf3
            show (afterExecute env q a sr data).error ≠ none
            unfold afterExecute at hsf4 ⊢
            cases hins : env.generate_insights q data a with
            | error e =>
              intro hc
              exact Option.noConfusion hc
            | ok insights =>
              rw [hins] at hsf4
              exact Bool.noConfusion hsf4
        · rw [if_neg hv] at hsf3 ⊢
          intro hc
          exact Option.noConfusion hc

/-- Witness for C5: a gateway failure in the analysis stage yields exactly the
handler's envelope. -/
theorem analyze_query_full_graceful_witness :
    analyze_query_full
      { analyze := fun _ => .error "Groq API call failed",
        generate_sql := fun _ _ => .ok { sql := "SELECT 1", explanation := "" },
        execute_sql := fun _ => .ok [],
        generate_insights := fun _ _ _ => .ok "" } "q1" =
      failedOutcome "Groq API call failed" "q1" :=
  (analyze_query_full_graceful _ "q1").1 "Groq API call failed" rfl

/-- Embedding of `LLMClient.load_prompt` (src/llm_client.py:30-46) over an
abstract prompt file store: `files category prompt_type` is the content of
`prompts/<category>/<prompt_type>.txt` when that file exists.  The cache is
elided: it only memoises successful reads of this same mapping.  `.error`
carries the `FileNotFoundError` message. -/
def load_prompt (files : String → String → Option String)
    (prompt_type category : String) : Except String String :=
  match files category prompt_type with
  | some content => .ok content
  | none =>
    .error ("Prompt file not found: prompts/" ++ category ++ "/" ++ prompt_type ++ ".txt")

/-- The `try` block of `load_prompt_with_auto_split`
(src/llm_client.py:50-52): load the system template, then the user template;
the first missing file aborts the pair. -/
def loadPromptPair (files : String → String → Option String)
    (prompt_type : String) : Except String (String × String) :=
  match load_prompt files prompt_type "system" with
  | .error e => .error e
  | .ok s =>
    match load_prompt files prompt_type "user" with
    | .error e => .error e
    | .ok u => .ok (s, u)

/-- Model of Python `str.replace` (all occurrences, scanning left to right
without overlap), fuel-indexed like `reSubDropAux`. -/
def replaceAllAux (pat rep : List Char) : Nat → List Char → List Char
  | 0, l => l
  | _, [] => []
  | f + 1, c :: rest =>
    if pat ≠ [] ∧ pat.isPrefixOf (c :: rest) then
      rep ++ replaceAllAux pat rep f ((c :: rest).drop pat.length)
    else c :: replaceAllAux pat rep f rest

/-- Python `template.replace(placeholder, value)`. -/
def replaceAll (s pat rep : String) : String :=
  ⟨replaceAllAux pat.data rep.data s.data.length s.data⟩

/-- Embedding of `LLMClient._inject_variables` (src/llm_client.py:63-69):
replace each `{key}` placeholder by its value, in variable order; the
membership test before `replace` is kept from the source although `replace`
of an absent pattern is already the identity. -/
def inject_variables (template : String) (vars : List (String × String)) : String :=
  vars.foldl (fun t kv =>
    if containsL t.data ("\x7b" ++ kv.1 ++ "\x7d").data then
      replaceAll t ("\x7b" ++ kv.1 ++ "\x7d") kv.2
    else t) template

/-- Embedding of `LLMClient.load_prompt_with_auto_split`
(src/llm_client.py:48-61): try the (system, user) template pair for the
prompt name; on any `FileNotFoundError` fall back to the generic
`system_prompt` system template and the fixed user turn `"Query: {query}"`;
inject the variables into both; an error escapes only from the fallback
load itself. -/
def load_prompt_with_auto_split (files : String → String → Option String)
    (prompt_type : String) (vars : List (String × String)) :
    Except String (String × String) :=
  match loadPromptPair files prompt_type with
  | .ok su => .ok (inject_variables su.1 vars, inject_variables su.2 vars)
  | .error _ =>
    match load_prompt files "system_prompt" "system" with
    | .ok s => .ok (inject_variables s vars, inject_variables "Query: \x7bquery\x7d" vars)
    | .error e => .error e

/-- C10: a missing system- or user-role template does not surface: the loader
falls back to the generic `system_prompt` template plus the fixed
`"Query: {query}"` user turn, with the same variable substitution applied to
both; and a not-found error escapes exactly when the generic `system_prompt`
template is itself missing. -/
theorem load_prompt_with_auto_split_fallback
    (files : String → String → Option String) (ptype : String)
    (vars : List (String × String)) :
    (∀ s u, files "system" ptype = some s → files "user" ptype = some u →
      load_prompt_with_auto_split files ptype vars =
        .ok (inject_variables s vars, inject_variables u vars)) ∧
    (files "system" ptype = none ∨ files "user" ptype = none →
      ∀ g, files "system" "system_prompt" = some g →
        load_prompt_with_auto_split files ptype vars =
          .ok (inject_variables g vars,
               inject_variables "Query: \x7bquery\x7d" vars)) ∧
    (files "system" ptype = none ∨ files "user" ptype = none →
      files "system" "system_prompt" = none →
        load_prompt_with_auto_split files ptype vars =
          .error "Prompt file not found: prompts/system/system_prompt.txt") ∧
    (∀ e, load_prompt_with_auto_split files ptype vars = .error e →
      files "system" "system_prompt" = none) := by
  have hpairok : ∀ s u, files "system" ptype = some s → files "user" ptype = some u →
      loadPromptPair files ptype = .ok (s, u) := by
    intro s u hs hu
    unfold loadPromptPair load_prompt
    rw [hs, hu]
  have hpairerr : (files "system" ptype = none ∨ files "user" ptype = none) →
      ∃ e, loadPromptPair files ptype = .error e := by
    intro hmiss
    rcases hmiss with hs | hu
    · refine ⟨"Prompt file not found: prompts/system/" ++ ptype ++ ".txt", ?_⟩
      unfold loadPromptPair load_prompt
      rw [hs]
      rfl
    · cases hs2 : files "system" ptype with
      | none =>
        refine ⟨"Prompt file not found: prompts/system/" ++ ptype ++ ".txt", ?_⟩
        unfold loadPromptPair load_prompt
        rw [hs2]
        rfl
      | some s =>
        refine ⟨"Prompt file not found: prompts/user/" ++ ptype ++ ".txt", ?_⟩
        unfold loadPromptPair load_prompt
        rw [hs2, hu]
        rfl
  refine ⟨?_, ?_, ?_, ?_⟩
  · intro s u hs hu
    unfold load_prompt_with_auto_split
    rw [hpairok s u hs hu]
  · intro hmiss g hg
    obtain ⟨e, hpe⟩ := hpairerr hmiss
    unfold load_prompt_with_auto_split
    rw [hpe]
    show (match load_prompt files "system_prompt" "system" with
      | .ok s => Except.ok (inject_variables s vars,
          inject_variables "Query: \x7bquery\x7d" vars)
      | .error e2 => Except.error e2) = _
    unfold load_prompt
    rw [hg]
  · intro hmiss hgn
    obtain ⟨e, hpe⟩ := hpairerr hmiss
    unfold load_prompt_with_auto_split
    rw [hpe]
    show (match load_prompt files "system_prompt" "system" with
      | .ok s => Except.ok (inject_variables s vars,
          inject_variables "Query: \x7bquery\x7d" vars)
      | .error e2 => Except.error e2) = _
    unfold load_prompt
    rw [hgn]
    rfl
  · intro e he
    unfold load_prompt_with_auto_split at he
    cases hpair : loadPromptPair files ptype with
    | ok su =>
      rw [hpair] at he
      exact Except.noConfusion he
    | error e2 =>
      rw [hpair] at he
      cases hg : files "system" "system_prompt" with
      | none => rfl
      | some g =>
        have hred : (match load_prompt files "system_prompt" "system" with
            | .ok s => Except.ok (inject_variables s vars,
                inject_variables "Query: \x7bquery\x7d" vars)
            | .error e2 => (Except.error e2 : Except String (String × String))) =
            Except.ok (inject_variables g vars,
              inject_variables "Query: \x7bquery\x7d" vars) := by
          unfold load_prompt
          rw [hg]
        rw [hred] at he
        exact Except.noConfusion he

/-- Witness for C10: with only the generic template present, a request for the
`query_analysis` pair falls back and substitutes the query into both turns. -/
theorem load_prompt_with_auto_split_fallback_witness :
    load_prompt_with_auto_split
      (fun category name =>
        if category = "system" ∧ name = "system_prompt"
        then some "System: \x7bquery\x7d" else none)
      "query_analysis" [("query", "list users")] =
      .ok ("System: list users", "Query: list users") := by
  have h := (load_prompt_with_auto_split_fallback
      (fun category name =>
        if category = "system" ∧ name = "system_prompt"
        then some "System: \x7bquery\x7d" else none)
      "query_analysis" [("query", "list users")]).2.1
      (Or.inl (by decide)) "System: \x7bquery\x7d" (by decide)
  exact h.trans (by rfl)
